import Mathlib

/-!
Verification of the `cpp_transform` engine of the concore repository
(`src/tools/cpp_transform/`).  The Python sources are shallowly embedded:
buffers are `List Char`, byte offsets are `Nat`, pending replacements are
`(start, end, text)` triples exactly as stored in
`TransformedUnit.replacements`, and each rule's `run` method becomes a
fuel-indexed recursive function over an explicit token list.
-/

/-! ## Replacement triples and the materialization pass
    (src/tools/cpp_transform/TransformedUnit.py) -/

/-- A pending replacement, exactly the tuple `(offset start, offset end, text)`
appended by `TransformedUnit.add_replacement`. -/
abbrev Repl := Nat × Nat × String

/-- Python tuple comparison on `(rstart, rend, text)` triples: lexicographic on
the three components.  `sorted(self.replacements)` orders by this relation. -/
def repLE (a b : Repl) : Prop :=
  a.1 < b.1 ∨ (a.1 = b.1 ∧ (a.2.1 < b.2.1 ∨ (a.2.1 = b.2.1 ∧ a.2.2 ≤ b.2.2)))

instance : DecidableRel repLE := fun a b => by
  unfold repLE; infer_instance

instance : IsTrans Repl repLE := by
  constructor
  rintro ⟨a1, a2, a3⟩ ⟨b1, b2, b3⟩ ⟨c1, c2, c3⟩ hab hbc
  rcases hab with h | ⟨h1, h | ⟨h2, h3⟩⟩ <;>
    rcases hbc with g | ⟨g1, g | ⟨g2, g3⟩⟩ <;>
    simp only [repLE] at * <;> subst_vars <;>
    first
      | (left; omega)
      | (right; exact ⟨rfl, by first | (left; omega) | (right; exact ⟨rfl, le_trans h3 g3⟩)⟩)

instance : IsTotal Repl repLE := by
  constructor
  rintro ⟨a1, a2, a3⟩ ⟨b1, b2, b3⟩
  rcases Nat.lt_trichotomy a1 b1 with h | h | h
  · exact Or.inl (Or.inl h)
  · subst h
    rcases Nat.lt_trichotomy a2 b2 with h2 | h2 | h2
    · exact Or.inl (Or.inr ⟨rfl, Or.inl h2⟩)
    · subst h2
      rcases le_total a3 b3 with h3 | h3
      · exact Or.inl (Or.inr ⟨rfl, Or.inr ⟨rfl, h3⟩⟩)
      · exact Or.inr (Or.inr ⟨rfl, Or.inr ⟨rfl, h3⟩⟩)
    · exact Or.inr (Or.inr ⟨rfl, Or.inl h2⟩)
  · exact Or.inr (Or.inl h)

instance : IsAntisymm Repl repLE := by
  constructor
  rintro ⟨a1, a2, a3⟩ ⟨b1, b2, b3⟩ hab hba
  simp only [repLE] at hab hba
  rcases hab with h | ⟨h1, h | ⟨h2, h3⟩⟩ <;>
    rcases hba with g | ⟨g1, g | ⟨g2, g3⟩⟩ <;>
    subst_vars <;>
    first
      | (exfalso; omega)
      | simp [le_antisymm h3 g3]

/-- Model of Python's `sorted` on replacement triples.  Python's sort is a
stable sort under the full-tuple comparison; since that comparison is a total,
antisymmetric order, the result coincides with insertion sort. -/
def pySorted (reps : List Repl) : List Repl :=
  List.insertionSort repLE reps

/-- The materialization loop of `TransformedUnit._get_modified_content`
(lines 87-99): walks the sorted replacement list with a running cursor `cur`,
copying `contents[cur:rstart]`, substituting `text`, advancing `cur` to `rend`,
and dropping (with a warning) any replacement whose `rstart` precedes `cur`. -/
def applyReplacements (contents : List Char) : Nat → List Repl → List Char
  | cur, [] => contents.drop cur
  | cur, (rstart, rend, text) :: rest =>
    if rstart < cur then
      applyReplacements contents cur rest
    else
      ((contents.drop cur).take (rstart - cur)) ++ text.data ++
        applyReplacements contents rend rest

/-- `TransformedUnit._get_modified_content`: returns the original contents when
no replacement is pending, otherwise applies the sorted replacements. -/
def getModifiedContent (contents : List Char) (replacements : List Repl) : List Char :=
  if replacements = [] then contents
  else applyReplacements contents 0 (pySorted replacements)

/-- The sublist of replacements actually applied by the materialization walk:
a replacement is kept exactly when its start does not precede the running
cursor, and the cursor then advances to its end. -/
def selectApplied : Nat → List Repl → List Repl
  | _, [] => []
  | cur, (rstart, rend, text) :: rest =>
    if rstart < cur then selectApplied cur rest
    else (rstart, rend, text) :: selectApplied rend rest

/-- Splicing a list of accepted replacements into the buffer: alternates the
untouched slices `contents[cur:rstart]` with the replacement texts, closing
with the untouched tail `contents[cur:]`. -/
def spliceApplied (contents : List Char) : Nat → List Repl → List Char
  | cur, [] => contents.drop cur
  | cur, (rstart, rend, text) :: rest =>
    ((contents.drop cur).take (rstart - cur)) ++ text.data ++
      spliceApplied contents rend rest

theorem applyReplacements_eq_splice (contents : List Char) :
    ∀ (l : List Repl) (cur : Nat),
      applyReplacements contents cur l = spliceApplied contents cur (selectApplied cur l) := by
  intro l
  induction l with
  | nil => intro cur; rfl
  | cons r rest ih =>
    intro cur
    obtain ⟨rstart, rend, text⟩ := r
    by_cases h : rstart < cur
    · simp [applyReplacements, selectApplied, h, ih]
    · simp [applyReplacements, selectApplied, spliceApplied, h, ih]

theorem getModifiedContent_eq_splice (contents : List Char) (reps : List Repl) :
    getModifiedContent contents reps
      = spliceApplied contents 0 (selectApplied 0 (pySorted reps)) := by
  by_cases h : reps = []
  · subst h
    simp [getModifiedContent, pySorted, selectApplied, spliceApplied]
  · simp [getModifiedContent, h, applyReplacements_eq_splice]

theorem selectApplied_head_ge :
    ∀ (l : List Repl) (cur : Nat) (r : Repl), r ∈ (selectApplied cur l).head? → cur ≤ r.1 := by
  intro l
  induction l with
  | nil => intro cur r h; simp [selectApplied] at h
  | cons p rest ih =>
    intro cur r h
    obtain ⟨rstart, rend, text⟩ := p
    by_cases hlt : rstart < cur
    · rw [selectApplied, if_pos hlt] at h
      exact ih cur r h
    · rw [selectApplied, if_neg hlt] at h
      simp only [List.head?_cons, Option.mem_def, Option.some.injEq] at h
      subst h; omega

theorem selectApplied_chain :
    ∀ (l : List Repl) (cur : Nat),
      List.Chain' (fun a b : Repl => a.2.1 ≤ b.1) (selectApplied cur l) := by
  intro l
  induction l with
  | nil => intro cur; simp [selectApplied]
  | cons p rest ih =>
    intro cur
    obtain ⟨rstart, rend, text⟩ := p
    by_cases hlt : rstart < cur
    · rw [selectApplied, if_pos hlt]; exact ih cur
    · rw [selectApplied, if_neg hlt]
      refine List.chain'_cons'.mpr ⟨?_, ih rend⟩
      intro y hy
      exact selectApplied_head_ge rest rend y hy

theorem selectApplied_subset :
    ∀ (l : List Repl) (cur : Nat) (r : Repl), r ∈ selectApplied cur l → r ∈ l := by
  intro l
  induction l with
  | nil => intro cur r h; simp [selectApplied] at h
  | cons p rest ih =>
    intro cur r h
    obtain ⟨rstart, rend, text⟩ := p
    by_cases hlt : rstart < cur
    · rw [selectApplied, if_pos hlt] at h
      exact List.mem_cons_of_mem _ (ih cur r h)
    · rw [selectApplied, if_neg hlt] at h
      rcases List.mem_cons.mp h with h | h
      · subst h; exact List.mem_cons_self _ _
      · exact List.mem_cons_of_mem _ (ih rend r h)

/-- C1 (corrected, counterexample): with the two pending replacements
`(0, 5, "zzz")` and `(0, 3, "aaa")` declared in that order, both starting at
offset 0, the claim as stated says the earliest-declared `(0, 5, "zzz")` wins
the tie; the code instead sorts full tuples, so `(0, 3, "aaa")` is applied,
`(0, 5, "zzz")` is dropped, and the output is `"aaaXX"`, not `"zzz"`. -/
theorem materialize_tie_break_counterexample :
    selectApplied 0 (pySorted [(0, 5, "zzz"), (0, 3, "aaa")]) = [(0, 3, "aaa")] ∧
    getModifiedContent "XXXXX".data [(0, 5, "zzz"), (0, 3, "aaa")] = "aaaXX".data ∧
    getModifiedContent "XXXXX".data [(0, 5, "zzz"), (0, 3, "aaa")] ≠ "zzz".data := by
  refine ⟨by decide, by decide, by decide⟩

/-- C1 (amended): `materialize` sorts the pending replacements by the full
`(start, end, text)` triple (hence primarily by `range.start`, with ties
broken toward the smaller end offset and then the lexicographically smaller
text, not toward the earliest-declared one), walks the original buffer
copying unmodified spans and substituting each accepted range's text, and
drops any replacement whose start offset falls before the running cursor, so
the earliest-sorted replacement among conflicting ones wins. -/
theorem materialize_sorts_and_drops_overlaps (contents : List Char) (reps : List Repl) :
    getModifiedContent contents reps
      = spliceApplied contents 0 (selectApplied 0 (pySorted reps)) ∧
    List.Sorted repLE (pySorted reps) ∧
    (pySorted reps).Perm reps := by
  refine ⟨getModifiedContent_eq_splice contents reps, ?_, ?_⟩
  · exact List.sorted_insertionSort repLE reps
  · exact List.perm_insertionSort repLE reps

/-- C2 (confirmed): the materialized output is the alternation of untouched
slices of the original buffer with the applied replacement texts — the
applied spans are cursor-ordered (each one's end precedes the next one's
start), every applied triple comes from the pending list, and with no pending
replacements the output is the input byte for byte. -/
theorem materialize_frame_property (contents : List Char) (reps : List Repl) :
    getModifiedContent contents [] = contents ∧
    getModifiedContent contents reps
      = spliceApplied contents 0 (selectApplied 0 (pySorted reps)) ∧
    List.Chain' (fun a b : Repl => a.2.1 ≤ b.1) (selectApplied 0 (pySorted reps)) ∧
    (∀ r ∈ selectApplied 0 (pySorted reps), r ∈ reps) := by
  refine ⟨rfl, getModifiedContent_eq_splice contents reps, selectApplied_chain _ 0, ?_⟩
  intro r hr
  have := selectApplied_subset _ 0 r hr
  exact (List.perm_insertionSort repLE reps).mem_iff.mp this

/-- C10 (confirmed): the materialized text depends only on the multiset of
`(start, end, text)` triples — permuting the pending list leaves the output
unchanged, because conflicts are resolved by sorting the full triples under a
total antisymmetric order rather than by declaration order. -/
theorem materialize_perm_invariant (contents : List Char) (reps reps' : List Repl)
    (h : reps.Perm reps') :
    getModifiedContent contents reps = getModifiedContent contents reps' := by
  have hsort : pySorted reps = pySorted reps' := by
    apply List.eq_of_perm_of_sorted (r := repLE)
    · exact ((List.perm_insertionSort repLE reps).trans h).trans
        (List.perm_insertionSort repLE reps').symm
    · exact List.sorted_insertionSort repLE reps
    · exact List.sorted_insertionSort repLE reps'
  by_cases hnil : reps = []
  · subst hnil
    have : reps' = [] := h.symm.eq_nil
    subst this
    rfl
  · have hnil' : reps' ≠ [] := by
      intro e
      subst e
      exact hnil h.eq_nil
    simp [getModifiedContent, hnil, hnil', hsort]

/-- Witness for C10 at a concrete input: swapping the two declared
replacements leaves the materialized output unchanged. -/
theorem materialize_perm_invariant_witness :
    List.Perm [((0 : Nat), (5 : Nat), "zzz"), (0, 3, "aaa")] [(0, 3, "aaa"), (0, 5, "zzz")] ∧
    getModifiedContent "XXXXX".data [(0, 5, "zzz"), (0, 3, "aaa")]
      = getModifiedContent "XXXXX".data [(0, 3, "aaa"), (0, 5, "zzz")] := by
  constructor
  · decide
  · exact materialize_perm_invariant "XXXXX".data _ _ (by decide)

/-! ## Tokens and the token matcher (src/tools/cpp_transform/_utils.py) -/

/-- Kinds of lexical tokens delivered by the external clang tokenizer. -/
inductive TokKind where
  | identifier
  | punctuation
  | keyword
  | comment
deriving DecidableEq

/-- A token as the rules observe it: clang kind, spelling, half-open byte
extent `[start, stop)`, the line of its start location, and the file it
belongs to. -/
structure Tok where
  kind : TokKind
  spelling : String
  start : Nat
  stop : Nat
  line : Nat
  file : String
deriving DecidableEq

/-- The inner loop of `find_tokens`: the expected `(kind, text)` pairs match
the tokens at consecutive indices beginning at `i`. -/
def matchesAt : List (TokKind × String) → List Tok → Nat → Bool
  | [], _, _ => true
  | ex :: rest, tokens, i =>
    match tokens.get? i with
    | some t => t.kind == ex.1 && t.spelling == ex.2 && matchesAt rest tokens (i + 1)
    | none => false

/-- Candidate scan of `find_tokens`: try indices `i, i+1, ...` for `count`
candidates, returning the first match, `-1` (the Python sentinel) if none. -/
def findTokensAux (expected : List (TokKind × String)) (tokens : List Tok) :
    Nat → Nat → Int
  | _, 0 => -1
  | i, count + 1 =>
    if matchesAt expected tokens i then (i : Int)
    else findTokensAux expected tokens (i + 1) count

/-- `_utils.find_tokens`: first index at or after `start_idx` where the
expected `(kind, text)` list matches contiguously; `-1` if none.  The
candidate count reproduces Python's `range(start_idx, n - m + 1)`. -/
def find_tokens (expected : List (TokKind × String)) (tokens_list : List Tok)
    (start_idx : Nat) : Int :=
  findTokensAux expected tokens_list start_idx
    (tokens_list.length + 1 - expected.length - start_idx)

/-- Candidate scan of `find_token` over `count` indices starting at `i`. -/
def findTokenAux (kind : TokKind) (text : String) (tokens : List Tok) :
    Nat → Nat → Int
  | _, 0 => -1
  | i, count + 1 =>
    match tokens.get? i with
    | some t =>
      if t.kind == kind && t.spelling == text then (i : Int)
      else findTokenAux kind text tokens (i + 1) count
    | none => -1

/-- `_utils.find_token`: first index at or after `start_idx` whose token has
the given kind and spelling; `-1` if none. -/
def find_token (kind : TokKind) (text : String) (tokens_list : List Tok)
    (start_idx : Nat) : Int :=
  findTokenAux kind text tokens_list start_idx (tokens_list.length - start_idx)

theorem findTokensAux_spec (expected : List (TokKind × String)) (tokens : List Tok) :
    ∀ (count i : Nat), ¬ findTokensAux expected tokens i count < 0 →
      i ≤ (findTokensAux expected tokens i count).toNat ∧
      matchesAt expected tokens (findTokensAux expected tokens i count).toNat = true := by
  intro count
  induction count with
  | zero => intro i h; simp [findTokensAux] at h
  | succ c ih =>
    intro i h
    by_cases hm : matchesAt expected tokens i = true
    · rw [findTokensAux, if_pos hm] at h ⊢
      simpa using hm
    · rw [findTokensAux, if_neg hm] at h ⊢
      have := ih (i + 1) h
      exact ⟨by omega, this.2⟩

theorem find_tokens_spec (expected : List (TokKind × String)) (tokens : List Tok)
    (start_idx : Nat) (h : ¬ find_tokens expected tokens start_idx < 0) :
    start_idx ≤ (find_tokens expected tokens start_idx).toNat ∧
    matchesAt expected tokens (find_tokens expected tokens start_idx).toNat = true :=
  findTokensAux_spec expected tokens _ start_idx h

/-- `TransformedUnit.add_replacement`: asserts `rend > rstart`, asserts that
the location's file is the unit's file, then appends the triple to the
pending list.  An `Except.error` models the raised `AssertionError`. -/
def add_replacement (unitFile locFile : String) (rstart rend : Nat)
    (new_text : String) (replacements : List Repl) : Except String (List Repl) :=
  if rend > rstart then
    if locFile = unitFile then
      Except.ok (replacements ++ [(rstart, rend, new_text)])
    else
      Except.error "AssertionError: invalid location filename"
  else
    Except.error "AssertionError: rend must exceed rstart"

/-- Outcome of running a token-scanning rule: `none` models a `run` call that
never terminates; `some (Except.error e)` a raised exception; and
`some (Except.ok reps)` normal completion with the replacements appended. -/
abbrev RunResult := Option (Except String (List Repl))

/-- Configuration state of `TokenIdReplace` after `__init__`. -/
structure TokenIdReplace where
  from_ : String
  from_num_parts : Nat
  to_ : String
  prev_count : Nat
  expected_tokens : List (TokKind × String)
deriving DecidableEq

/-- `TokenIdReplace.__init__` on already-interpreted prev/after context token
lists: the expected pattern is prev-context ++ the identifier to replace ++
after-context. -/
def TokenIdReplace.mkRule (from_ to_ : String)
    (prev after : List (TokKind × String)) : TokenIdReplace :=
  ⟨from_, (from_.splitOn "::").length, to_, prev.length,
    prev ++ [(TokKind.identifier, from_)] ++ after⟩

/-- The `while start < n` loop of `TokenIdReplace.run` (lines 28-40): find the
expected tokens, replace the extent of the token at `idx + prev_count` with
the destination text, then continue from `idx + prev_count + 1`. -/
def TokenIdReplace.runLoop (r : TokenIdReplace) (unitFile : String)
    (tokens : List Tok) : Nat → Nat → List Repl → RunResult
  | 0, _, _ => none
  | fuel + 1, start, reps =>
    if start < tokens.length then
      if find_tokens r.expected_tokens tokens start < 0 then some (Except.ok reps)
      else
        match tokens.get?
            ((find_tokens r.expected_tokens tokens start).toNat + r.prev_count) with
        | none => some (Except.error "IndexError")
        | some replace_token =>
          match add_replacement unitFile replace_token.file replace_token.start
              replace_token.stop r.to_ reps with
          | Except.error e => some (Except.error e)
          | Except.ok reps1 =>
            TokenIdReplace.runLoop r unitFile tokens fuel
              ((find_tokens r.expected_tokens tokens start).toNat + r.prev_count + 1) reps1
    else some (Except.ok reps)

/-- `TokenIdReplace.run` on a unit with the given file name and token stream;
the fuel `n + 1` covers every terminating execution of the Python loop. -/
def TokenIdReplace.run (r : TokenIdReplace) (unitFile : String)
    (tokens : List Tok) : RunResult :=
  TokenIdReplace.runLoop r unitFile tokens (tokens.length + 1) 0 []

/-- Configuration state of `ReplaceTokens` after `__init__`. -/
structure ReplaceTokens where
  to_ : String
  tokens : List (TokKind × String)
  prev_count : Nat
  expected_tokens : List (TokKind × String)
deriving DecidableEq

/-- `ReplaceTokens.__init__` on already-interpreted token lists. -/
def ReplaceTokens.mkRule (to_ : String)
    (tokens prev after : List (TokKind × String)) : ReplaceTokens :=
  ⟨to_, tokens, prev.length, prev ++ tokens ++ after⟩

/-- The `while start < n` loop of `ReplaceTokens.run` (lines 29-43): the
replaced span runs from the start of token `idx + prev_count` to the end of
token `idx + prev_count + len(tokens) - 1`; the scan then resumes from
`idx + prev_count + 1` — one past the first target token, not past the whole
target. -/
def ReplaceTokens.runLoop (r : ReplaceTokens) (unitFile : String)
    (tokens : List Tok) : Nat → Nat → List Repl → RunResult
  | 0, _, _ => none
  | fuel + 1, start, reps =>
    if start < tokens.length then
      if find_tokens r.expected_tokens tokens start < 0 then some (Except.ok reps)
      else
        match tokens.get?
            ((find_tokens r.expected_tokens tokens start).toNat + r.prev_count),
          tokens.get?
            ((find_tokens r.expected_tokens tokens start).toNat + r.prev_count
              + r.tokens.length - 1) with
        | some tfirst, some tlast =>
          match add_replacement unitFile tfirst.file tfirst.start
              tlast.stop r.to_ reps with
          | Except.error e => some (Except.error e)
          | Except.ok reps1 =>
            ReplaceTokens.runLoop r unitFile tokens fuel
              ((find_tokens r.expected_tokens tokens start).toNat + r.prev_count + 1) reps1
        | _, _ => some (Except.error "IndexError")
    else some (Except.ok reps)

/-- `ReplaceTokens.run` with fuel covering every terminating execution. -/
def ReplaceTokens.run (r : ReplaceTokens) (unitFile : String)
    (tokens : List Tok) : RunResult :=
  ReplaceTokens.runLoop r unitFile tokens (tokens.length + 1) 0 []

theorem add_replacement_ok (uf lf : String) (rstart rend : Nat) (txt : String)
    (reps l : List Repl) (h : add_replacement uf lf rstart rend txt reps = Except.ok l) :
    l = reps ++ [(rstart, rend, txt)] ∧ rstart < rend ∧ lf = uf := by
  unfold add_replacement at h
  split at h
  · split at h
    · refine ⟨by cases h; rfl, by omega, by assumption⟩
    · cases h
  · cases h

theorem pairwise_tokens_get (tokens : List Tok)
    (hwf : List.Pairwise (fun a b : Tok => a.stop ≤ b.start) tokens)
    (i j : Nat) (hij : i < j) (a b : Tok)
    (ha : tokens.get? i = some a) (hb : tokens.get? j = some b) :
    a.stop ≤ b.start := by
  rw [List.get?_eq_some] at ha hb
  obtain ⟨hi, rfl⟩ := ha
  obtain ⟨hj, rfl⟩ := hb
  exact List.pairwise_iff_get.mp hwf ⟨i, hi⟩ ⟨j, hj⟩ hij

/-- The literal token pattern scanned for by `IncludeToQuotes.run`:
`#`, `include`, `<`. -/
def expected_start : List (TokKind × String) :=
  [(TokKind.punctuation, "#"), (TokKind.identifier, "include"),
   (TokKind.punctuation, "<")]

/-- Python list indexing `tokens[i]` with negative-index wraparound. -/
def pyGet (tokens : List Tok) (i : Int) : Option Tok :=
  if i < 0 then
    if 0 ≤ (tokens.length : Int) + i then
      tokens.get? (((tokens.length : Int) + i).toNat)
    else none
  else tokens.get? i.toNat

/-- The `include` accumulation loop of `IncludeToQuotes.run` (lines 38-40):
concatenates the spellings of `tokens[lo:hi]`; Python's `range` is empty when
`hi ≤ lo` (in particular when `hi` is the `-1` sentinel). -/
def concatSpellings (tokens : List Tok) (lo : Nat) (hi : Int) : String :=
  if hi ≤ (lo : Int) then ""
  else String.join (((tokens.drop lo).take (hi.toNat - lo)).map Tok.spelling)

/-- The `while start < n` loop of `IncludeToQuotes.run` (lines 28-49): find
`# include <`, scan forward for the next `>`, reconstruct the header name
between the delimiters, replace the whole `<...>` span with the quoted name
when the name is in the allow-list, and resume from `idx2 + 1` — where `idx2`
is `-1` when no `>` exists, sending the cursor back to index 0. -/
def IncludeToQuotes.runLoop (headers : List String) (unitFile : String)
    (tokens : List Tok) : Nat → Nat → List Repl → RunResult
  | 0, _, _ => none
  | fuel + 1, start, reps =>
    if start < tokens.length then
      let idx := find_tokens expected_start tokens start
      if idx < 0 then some (Except.ok reps)
      else
        let idx2 := find_token TokKind.punctuation ">" tokens (idx.toNat + 3)
        let include_ := concatSpellings tokens (idx.toNat + 3) idx2
        if include_ ∈ headers then
          match pyGet tokens (idx + 2), pyGet tokens idx2 with
          | some topen, some tclose =>
            match add_replacement unitFile topen.file topen.start tclose.stop
                ("\"" ++ include_ ++ "\"") reps with
            | Except.error e => some (Except.error e)
            | Except.ok reps1 =>
              IncludeToQuotes.runLoop headers unitFile tokens fuel
                (idx2 + 1).toNat reps1
          | _, _ => some (Except.error "IndexError")
        else
          IncludeToQuotes.runLoop headers unitFile tokens fuel (idx2 + 1).toNat reps
    else some (Except.ok reps)

/-- `IncludeToQuotes.run` with fuel covering every terminating execution. -/
def IncludeToQuotes.run (headers : List String) (unitFile : String)
    (tokens : List Tok) : RunResult :=
  IncludeToQuotes.runLoop headers unitFile tokens (tokens.length + 1) 0 []

theorem findTokenAux_spec (kind : TokKind) (text : String) (tokens : List Tok) :
    ∀ (count i : Nat), ¬ findTokenAux kind text tokens i count < 0 →
      i ≤ (findTokenAux kind text tokens i count).toNat ∧
      ∃ tk, tokens.get? ((findTokenAux kind text tokens i count).toNat) = some tk ∧
        tk.kind = kind ∧ tk.spelling = text := by
  intro count
  induction count with
  | zero => intro i h; simp [findTokenAux] at h
  | succ c ih =>
    intro i h
    cases hg : tokens.get? i with
    | none =>
      have hstep : findTokenAux kind text tokens i (c + 1) = -1 := by
        rw [findTokenAux, hg]
      rw [hstep] at h
      simp at h
    | some t =>
      have hstep : findTokenAux kind text tokens i (c + 1)
          = if (t.kind == kind && t.spelling == text) = true then (i : Int)
            else findTokenAux kind text tokens (i + 1) c := by
        rw [findTokenAux, hg]
      cases hc : (t.kind == kind && t.spelling == text) with
      | true =>
        rw [hstep, if_pos hc] at h ⊢
        rw [Bool.and_eq_true, beq_iff_eq, beq_iff_eq] at hc
        refine ⟨by omega, t, ?_, hc.1, hc.2⟩
        rw [show ((i : Int)).toNat = i from by omega]
        exact hg
      | false =>
        rw [hstep, if_neg (by simp [hc])] at h ⊢
        obtain ⟨h1, tk, h2, h3, h4⟩ := ih (i + 1) h
        exact ⟨by omega, tk, h2, h3, h4⟩

theorem find_token_spec (kind : TokKind) (text : String) (tokens : List Tok)
    (start_idx : Nat) (h : ¬ find_token kind text tokens start_idx < 0) :
    start_idx ≤ (find_token kind text tokens start_idx).toNat ∧
    ∃ tk, tokens.get? ((find_token kind text tokens start_idx).toNat) = some tk ∧
      tk.kind = kind ∧ tk.spelling = text :=
  findTokenAux_spec kind text tokens _ start_idx h

theorem matchesAt_lt (p : TokKind × String) (rest : List (TokKind × String))
    (tokens : List Tok) (i : Nat) (h : matchesAt (p :: rest) tokens i = true) :
    i < tokens.length := by
  rw [matchesAt] at h
  cases hg : tokens.get? i with
  | none => rw [hg] at h; simp at h
  | some t => exact (List.get?_eq_some.mp hg).1

/-- Shape of every replacement appended by `IncludeToQuotes.run`: some
occurrence of `#` `include` `<` at index `i`, whose next `>` sits at index
`j`, whose reconstructed name (the spellings strictly between the
delimiters concatenated) is in the allow-list, and whose replacement spans
from the `<` token to the end of the `>` token carrying the quoted name. -/
def IncludeDirectiveRepl (headers : List String) (tokens : List Tok)
    (rep : Repl) : Prop :=
  ∃ (i j : Nat) (topen tclose : Tok),
    matchesAt expected_start tokens i = true ∧
    find_token TokKind.punctuation ">" tokens (i + 3) = (j : Int) ∧
    tokens.get? (i + 2) = some topen ∧
    tokens.get? j = some tclose ∧
    concatSpellings tokens (i + 3) (j : Int) ∈ headers ∧
    rep = (topen.start, tclose.stop,
      "\"" ++ concatSpellings tokens (i + 3) (j : Int) ++ "\"")

theorem includeToQuotesLoop_sound (headers : List String) (uf : String)
    (tokens : List Tok)
    (hwf : List.Pairwise (fun a b : Tok => a.stop ≤ b.start) tokens)
    (hterm : ∀ i, matchesAt expected_start tokens i = true →
      ¬ find_token TokKind.punctuation ">" tokens (i + 3) < 0) :
    ∀ (fuel start : Nat) (reps l : List Repl),
      List.Pairwise (fun a b : Repl => a.2.1 ≤ b.1) reps →
      (∀ rep ∈ reps, ∀ j, start ≤ j → ∀ tk, tokens.get? j = some tk →
        rep.2.1 ≤ tk.start) →
      (∀ rep ∈ reps, IncludeDirectiveRepl headers tokens rep) →
      IncludeToQuotes.runLoop headers uf tokens fuel start reps
        = some (Except.ok l) →
      List.Pairwise (fun a b : Repl => a.2.1 ≤ b.1) l ∧
        ∀ rep ∈ l, IncludeDirectiveRepl headers tokens rep := by
  intro fuel
  induction fuel with
  | zero =>
    intro start reps l _ _ _ heq
    simp [IncludeToQuotes.runLoop] at heq
  | succ n ih =>
    intro start reps l hpw hbound htgt heq
    rw [IncludeToQuotes.runLoop] at heq
    split at heq
    case isFalse hstart =>
      obtain rfl : reps = l := by simpa using heq
      exact ⟨hpw, htgt⟩
    case isTrue hstart =>
      simp only [] at heq
      split at heq
      case isTrue hidx =>
        obtain rfl : reps = l := by simpa using heq
        exact ⟨hpw, htgt⟩
      case isFalse hidx =>
        obtain ⟨hge, hmatch⟩ := find_tokens_spec expected_start tokens start hidx
        have hterm2 := hterm _ hmatch
        obtain ⟨hge2, tcl, htcl, _, _⟩ :=
          find_token_spec TokKind.punctuation ">" tokens _ hterm2
        split at heq
        case isTrue hinc =>
          split at heq
          case h_1 topen tclose hpo hpc =>
            have hpo' : tokens.get?
                ((find_tokens expected_start tokens start).toNat + 2) = some topen := by
              rw [pyGet, if_neg (by omega)] at hpo
              rw [show (find_tokens expected_start tokens start + 2).toNat
                  = (find_tokens expected_start tokens start).toNat + 2 from by omega] at hpo
              exact hpo
            have hpc' : tokens.get?
                ((find_token TokKind.punctuation ">" tokens
                  ((find_tokens expected_start tokens start).toNat + 3)).toNat)
                = some tclose := by
              rw [pyGet, if_neg (by omega)] at hpc
              exact hpc
            split at heq
            case h_1 e hadd =>
              cases heq
            case h_2 reps1 hadd =>
              obtain ⟨rfl, hlt, hfile⟩ := add_replacement_ok _ _ _ _ _ _ _ hadd
              refine ih _ _ l ?_ ?_ ?_ heq
              · refine List.pairwise_append.mpr
                  ⟨hpw, List.pairwise_singleton _ _, ?_⟩
                intro a ha b hb
                rw [List.mem_singleton] at hb
                subst hb
                exact hbound a ha _ (by omega) topen hpo'
              · intro rep hrep j hj tk htk
                rcases List.mem_append.mp hrep with hr | hr
                · exact hbound rep hr j (by omega) tk htk
                · rw [List.mem_singleton] at hr
                  subst hr
                  exact pairwise_tokens_get tokens hwf _ j (by omega) tclose tk hpc' htk
              · intro rep hrep
                rcases List.mem_append.mp hrep with hr | hr
                · exact htgt rep hr
                · rw [List.mem_singleton] at hr
                  subst hr
                  refine ⟨(find_tokens expected_start tokens start).toNat,
                    (find_token TokKind.punctuation ">" tokens
                      ((find_tokens expected_start tokens start).toNat + 3)).toNat,
                    topen, tclose, hmatch, by omega, hpo', hpc', ?_, ?_⟩
                  · rw [show (((find_token TokKind.punctuation ">" tokens
                        ((find_tokens expected_start tokens start).toNat + 3)).toNat : Nat)
                        : Int)
                      = find_token TokKind.punctuation ">" tokens
                        ((find_tokens expected_start tokens start).toNat + 3) from by omega]
                    exact hinc
                  · rw [show (((find_token TokKind.punctuation ">" tokens
                        ((find_tokens expected_start tokens start).toNat + 3)).toNat : Nat)
                        : Int)
                      = find_token TokKind.punctuation ">" tokens
                        ((find_tokens expected_start tokens start).toNat + 3) from by omega]
          case h_2 =>
            cases heq
        case isFalse hinc =>
          refine ih _ _ l hpw ?_ htgt heq
          intro rep hrep j hj tk htk
          exact hbound rep hrep j (by omega) tk htk

/-- Clang token stream of `#include <foo.hpp>\n#include <bar.hpp>\n`: the
header names are split into identifier and punctuation tokens. -/
def includeTokens : List Tok :=
  [⟨TokKind.punctuation, "#", 0, 1, 1, "f.cpp"⟩,
   ⟨TokKind.identifier, "include", 1, 8, 1, "f.cpp"⟩,
   ⟨TokKind.punctuation, "<", 9, 10, 1, "f.cpp"⟩,
   ⟨TokKind.identifier, "foo", 10, 13, 1, "f.cpp"⟩,
   ⟨TokKind.punctuation, ".", 13, 14, 1, "f.cpp"⟩,
   ⟨TokKind.identifier, "hpp", 14, 17, 1, "f.cpp"⟩,
   ⟨TokKind.punctuation, ">", 17, 18, 1, "f.cpp"⟩,
   ⟨TokKind.punctuation, "#", 19, 20, 2, "f.cpp"⟩,
   ⟨TokKind.identifier, "include", 20, 27, 2, "f.cpp"⟩,
   ⟨TokKind.punctuation, "<", 28, 29, 2, "f.cpp"⟩,
   ⟨TokKind.identifier, "bar", 29, 32, 2, "f.cpp"⟩,
   ⟨TokKind.punctuation, ".", 32, 33, 2, "f.cpp"⟩,
   ⟨TokKind.identifier, "hpp", 33, 36, 2, "f.cpp"⟩,
   ⟨TokKind.punctuation, ">", 36, 37, 2, "f.cpp"⟩]

/-- C5 (confirmed): for every token stream whose extents are ordered and in
which every `#` `include` `<` occurrence has a later `>`, every replacement
`IncludeToQuotes.run` appends converts an include directive whose
reconstructed name (the spellings strictly between `<` and `>` concatenated)
is in the allow-list, replacing the `<...>` span with the quoted name, and
the replacements are pairwise non-overlapping (the scan resumes after the
closing delimiter, so no directive is converted twice).  On the spec
example, with allow-list `{foo.hpp}` only the first directive is converted
and materialization yields the expected output; with both headers allowed,
each directive is converted exactly once. -/
theorem include_to_quotes_spec (headers : List String) (uf : String)
    (tokens : List Tok)
    (hwf : List.Pairwise (fun a b : Tok => a.stop ≤ b.start) tokens)
    (hterm : ∀ i, matchesAt expected_start tokens i = true →
      ¬ find_token TokKind.punctuation ">" tokens (i + 3) < 0) :
    (∀ l, IncludeToQuotes.run headers uf tokens = some (Except.ok l) →
      List.Pairwise (fun a b : Repl => a.2.1 ≤ b.1) l ∧
        ∀ rep ∈ l, IncludeDirectiveRepl headers tokens rep) ∧
    IncludeToQuotes.run ["foo.hpp"] "f.cpp" includeTokens
      = some (Except.ok [(9, 18, "\"foo.hpp\"")]) ∧
    getModifiedContent "#include <foo.hpp>\n#include <bar.hpp>\n".data
        [(9, 18, "\"foo.hpp\"")]
      = "#include \"foo.hpp\"\n#include <bar.hpp>\n".data ∧
    IncludeToQuotes.run ["foo.hpp", "bar.hpp"] "f.cpp" includeTokens
      = some (Except.ok [(9, 18, "\"foo.hpp\""), (28, 37, "\"bar.hpp\"")]) := by
  refine ⟨?_, rfl, by decide, rfl⟩
  intro l heq
  exact includeToQuotesLoop_sound headers uf tokens hwf hterm _ 0 [] l
    List.Pairwise.nil (by simp) (by simp) heq

/-- Witness for C5 at the spec example stream: the extents are ordered, every
include directive is terminated by a `>`, and the two replacements produced
with both headers allowed are pairwise non-overlapping. -/
theorem include_to_quotes_spec_witness :
    List.Pairwise (fun a b : Tok => a.stop ≤ b.start) includeTokens ∧
    (∀ i, matchesAt expected_start includeTokens i = true →
      ¬ find_token TokKind.punctuation ">" includeTokens (i + 3) < 0) ∧
    List.Pairwise (fun a b : Repl => a.2.1 ≤ b.1)
      [(9, 18, "\"foo.hpp\""), (28, 37, "\"bar.hpp\"")] := by
  have hterm : ∀ i, matchesAt expected_start includeTokens i = true →
      ¬ find_token TokKind.punctuation ">" includeTokens (i + 3) < 0 := by
    have hbdd : ∀ i, i < 14 → (matchesAt expected_start includeTokens i = true →
        ¬ find_token TokKind.punctuation ">" includeTokens (i + 3) < 0) := by
      decide
    intro i h
    by_cases hb : i < 14
    · exact hbdd i hb h
    · have := matchesAt_lt _ _ _ _ h
      rw [show includeTokens.length = 14 from rfl] at this
      omega
  refine ⟨by decide, hterm, ?_⟩
  exact ((include_to_quotes_spec ["foo.hpp", "bar.hpp"] "f.cpp" includeTokens
    (by decide) hterm).1 _ rfl).1

/-- A finite stream containing `#` `include` `<` with no later `>` token. -/
def unterminatedInclude : List Tok :=
  [⟨TokKind.punctuation, "#", 0, 1, 1, "f.cpp"⟩,
   ⟨TokKind.identifier, "include", 2, 9, 1, "f.cpp"⟩,
   ⟨TokKind.punctuation, "<", 10, 11, 1, "f.cpp"⟩]

/-- C9 (code_bug): on the finite stream `#` `include` `<` with no later `>`,
`find_token` yields the sentinel `-1`, the reconstructed name is empty and
not in the allow-list, and the next cursor is `idx2 + 1 = 0` — the loop
repeats the identical iteration forever.  For every fuel bound the loop is
still running (`none`), refuting the termination the spec asserts for every
rule `run`. -/
theorem include_to_quotes_nontermination (fuel : Nat) :
    IncludeToQuotes.runLoop ["some_header.hpp"] "f.cpp" unterminatedInclude
      fuel 0 [] = none := by
  induction fuel with
  | zero => rfl
  | succ n ih =>
    calc IncludeToQuotes.runLoop ["some_header.hpp"] "f.cpp" unterminatedInclude
          (n + 1) 0 []
        = IncludeToQuotes.runLoop ["some_header.hpp"] "f.cpp" unterminatedInclude
          n 0 [] := rfl
      _ = none := ih

/-! ## SurroundTokens (src/tools/cpp_transform/SurroundTokens.py) -/

/-- Configuration state of `SurroundTokens` after `__init__`: prefix text,
suffix text and the token pattern to surround. -/
structure SurroundTokens where
  pre : String
  post : String
  tokens : List (TokKind × String)
deriving DecidableEq

/-- The `while start < n` loop of `SurroundTokens.run` (lines 24-44): on each
match the rule calls `add_replacement` with the zero-width ranges
`[loc_start, loc_start)` (carrying the prefix) and `[loc_end, loc_end)`
(carrying the suffix) whenever the respective text is non-empty, then resumes
from `idx + len(tokens) + 1`. -/
def SurroundTokens.runLoop (r : SurroundTokens) (unitFile : String)
    (tokens : List Tok) : Nat → Nat → List Repl → RunResult
  | 0, _, _ => none
  | fuel + 1, start, reps =>
    if start < tokens.length then
      if find_tokens r.tokens tokens start < 0 then some (Except.ok reps)
      else
        match tokens.get? (find_tokens r.tokens tokens start).toNat,
            tokens.get?
              ((find_tokens r.tokens tokens start).toNat + r.tokens.length - 1) with
        | some tfirst, some tlast =>
          match (if r.pre = "" then Except.ok reps
                 else add_replacement unitFile tfirst.file tfirst.start
                   tfirst.start r.pre reps) with
          | Except.error e => some (Except.error e)
          | Except.ok reps1 =>
            match (if r.post = "" then Except.ok reps1
                   else add_replacement unitFile tlast.file tlast.stop
                     tlast.stop r.post reps1) with
            | Except.error e => some (Except.error e)
            | Except.ok reps2 =>
              SurroundTokens.runLoop r unitFile tokens fuel
                ((find_tokens r.tokens tokens start).toNat + r.tokens.length + 1) reps2
        | _, _ => some (Except.error "IndexError")
    else some (Except.ok reps)

/-- `SurroundTokens.run` with fuel covering every terminating execution. -/
def SurroundTokens.run (r : SurroundTokens) (unitFile : String)
    (tokens : List Tok) : RunResult :=
  SurroundTokens.runLoop r unitFile tokens (tokens.length + 1) 0 []

/-- A stream with exactly one occurrence of the `DEPRECATED_MACRO` token. -/
def deprecatedTokens : List Tok :=
  [⟨TokKind.identifier, "DEPRECATED_MACRO", 0, 16, 1, "f.cpp"⟩]

/-- The spec example configuration for `SurroundTokens`. -/
def surroundRule : SurroundTokens :=
  ⟨"#if 0\n", "\n#endif", [(TokKind.identifier, "DEPRECATED_MACRO")]⟩

/-- C6 (code_bug): on an input with exactly one occurrence of the configured
token, `SurroundTokens.run` should bracket it with the prefix and suffix; in
the code every insertion goes through `add_replacement` with a zero-width
range, and its `assert rend > rstart` (TransformedUnit.py line 40) fires, so
the run raises an `AssertionError` on the very first match instead of
inserting anything. -/
theorem surround_tokens_assertion_failure :
    surroundRule.pre = "#if 0\n" ∧ surroundRule.post = "\n#endif" ∧
    SurroundTokens.run surroundRule "f.cpp" deprecatedTokens
      = some (Except.error "AssertionError: rend must exceed rstart") := by
  refine ⟨rfl, rfl, rfl⟩

/-! ## AST nodes, visitor and qualified names (src/tools/cpp_transform/_utils.py),
    and NamespaceRename (src/tools/cpp_transform/NamespaceRename.py) -/

/-- Clang cursor kinds the rules inspect. -/
inductive CurKind where
  | TRANSLATION_UNIT
  | NAMESPACE
  | VAR_DECL
deriving DecidableEq

mutual

/-- An AST node as the rules observe it: cursor kind, spelling, byte extent,
the line of the extent's end, the file of its location, and ordered
children.  The children are a mutually inductive forest so that the tree
walks below are plain structural recursion. -/
inductive AstNode where
  | mk (kind : CurKind) (spelling : String) (extStart extEnd endLine : Nat)
      (file : String) (children : AstForest)

/-- An ordered sequence of sibling AST nodes. -/
inductive AstForest where
  | nil
  | cons (hd : AstNode) (tl : AstForest)

end

def AstNode.kind : AstNode → CurKind
  | AstNode.mk k _ _ _ _ _ _ => k

def AstNode.spelling : AstNode → String
  | AstNode.mk _ sp _ _ _ _ _ => sp

def AstNode.extStart : AstNode → Nat
  | AstNode.mk _ _ es _ _ _ _ => es

def AstNode.extEnd : AstNode → Nat
  | AstNode.mk _ _ _ ee _ _ _ => ee

def AstNode.endLine : AstNode → Nat
  | AstNode.mk _ _ _ _ el _ _ => el

def AstNode.file : AstNode → String
  | AstNode.mk _ _ _ _ _ fl _ => fl

def AstNode.children : AstNode → AstForest
  | AstNode.mk _ _ _ _ _ _ ch => ch

/-- The visitor verdicts of `_utils`: Python `True` (descend into children),
`False` (prune this subtree) and a `StopToken` (halt the walk). -/
inductive VisitCtl where
  | descend
  | prune
  | stop
deriving DecidableEq

mutual

/-- `_do_visit` of `_utils.visit_cur_unit_ast`: skip nodes whose location
file differs from the primary one, apply the functor (threading its state),
halt everything on a `StopToken`, skip the children on `False` (prune), and
on `True` (descend) walk the children.  The boolean result is the
should-stop flag. -/
def visitNode {σ : Type} (ourFile : String) (f : σ → AstNode → σ × VisitCtl)
    (s : σ) : AstNode → σ × Bool
  | AstNode.mk k sp es ee el fl ch =>
    if fl ≠ ourFile then (s, false)
    else
      match f s (AstNode.mk k sp es ee el fl ch) with
      | (s1, VisitCtl.stop) => (s1, true)
      | (s1, VisitCtl.prune) => (s1, false)
      | (s1, VisitCtl.descend) => visitForest ourFile f s1 ch

/-- The `for c in node.get_children()` loop of `_do_visit`. -/
def visitForest {σ : Type} (ourFile : String) (f : σ → AstNode → σ × VisitCtl)
    (s : σ) : AstForest → σ × Bool
  | AstForest.nil => (s, false)
  | AstForest.cons c cs =>
    match visitNode ourFile f s c with
    | (s1, true) => (s1, true)
    | (s1, false) => visitForest ourFile f s1 cs

end

/-- `_utils.visit_cur_unit_ast`: the primary file is the file of the root
node's extent; the walk starts at the root. -/
def visit_cur_unit_ast {σ : Type} (node : AstNode)
    (f : σ → AstNode → σ × VisitCtl) (s : σ) : σ :=
  (visitNode node.file f s node).1

/-- Structural model of Python's non-overlapping substring scan, with fuel
bounded by the remaining length: used for `str.count` and `str.replace`. -/
def countOccurAux (pat : List Char) : Nat → List Char → Nat
  | 0, _ => 0
  | _ + 1, [] => 0
  | fuel + 1, c :: cs =>
    if pat ≠ [] ∧ pat.isPrefixOf (c :: cs) then
      1 + countOccurAux pat fuel (cs.drop (pat.length - 1))
    else
      countOccurAux pat fuel cs

/-- Python `s.count(pat)` for a non-empty pattern: non-overlapping
occurrences, scanned left to right. -/
def pyCountSub (s pat : String) : Nat :=
  countOccurAux pat.data s.data.length s.data

/-- Structural model of Python `str.replace`, replacing every non-overlapping
occurrence left to right (faithful for non-empty patterns). -/
def pyReplaceAux (pat rep : List Char) : Nat → List Char → List Char
  | 0, s => s
  | _ + 1, [] => []
  | fuel + 1, c :: cs =>
    if pat ≠ [] ∧ pat.isPrefixOf (c :: cs) then
      rep ++ pyReplaceAux pat rep fuel (cs.drop (pat.length - 1))
    else
      c :: pyReplaceAux pat rep fuel cs

/-- Python `s.replace(pat, rep)` for a non-empty pattern. -/
def pyReplace (s pat rep : String) : String :=
  ⟨pyReplaceAux pat.data rep.data s.data.length s.data⟩

/-- One scan step of substring containment. -/
def listContainsSub (pat : List Char) : List Char → Bool
  | [] => pat.isEmpty
  | c :: cs => pat.isPrefixOf (c :: cs) || listContainsSub pat cs

/-- Python substring containment `sub in s`. -/
def strContains (s sub : String) : Bool :=
  listContainsSub sub.data s.data

/-- `_get_complete_namespace_name` loop body: while the node has exactly one
child, that child is a namespace and the child's extent ends at the original
node's end offset, append `::child.spelling` and continue from the child. -/
def nsNameAux (endLoc : Nat) : String → AstNode → String
  | full, AstNode.mk _ _ _ _ _ _ (AstForest.cons child AstForest.nil) =>
    if child.kind = CurKind.NAMESPACE ∧ child.extEnd = endLoc then
      nsNameAux endLoc (full ++ "::" ++ child.spelling) child
    else full
  | full, _ => full

/-- `NamespaceRename._get_complete_namespace_name` (identical to the `_utils`
copy): qualified name of a possibly chained namespace node. -/
def get_complete_namespace_name (node : AstNode) : String :=
  nsNameAux node.extEnd node.spelling node

/-- The view of a `TransformedUnit` a rule's `run` reads: primary file name,
original contents, the clang token stream and the AST root cursor. -/
structure TransformedUnit where
  filename : String
  contents : List Char
  tokens : List Tok
  cursor : AstNode

/-- Model of `unit.get_tokens(extent)`: the unit's tokens lying within the
given byte extent. -/
def TransformedUnit.getTokensIn (u : TransformedUnit)
    (extStart extEnd : Nat) : List Tok :=
  u.tokens.filter (fun tk => extStart ≤ tk.start && tk.stop ≤ extEnd)

/-- Model of the comment probe of `NamespaceRename.run` (lines 69-75): the
tokens of the range from the namespace's end location to the first column two
lines below — the tokens starting at or after the end offset on a line at
most `endLine + 1`; the code then examines the first of them. -/
def TransformedUnit.getTokensAfter (u : TransformedUnit)
    (startOff startLine : Nat) : List Tok :=
  u.tokens.filter (fun tk => startOff ≤ tk.start && tk.line ≤ startLine + 1)

/-- Configuration state of `NamespaceRename` after `__init__`: fields are
optional because the constructor leaves missing keys unset. -/
structure NamespaceRename where
  from_ : Option String
  from_num_parts : Option Nat
  to_ : Option String
  errors : List String
deriving DecidableEq

/-- `NamespaceRename.__init__`: iterates the parameter dictionary; `from` and
`to` set the corresponding fields and any other key only reports an error
message; a missing key is silently left unset — the constructor never
raises. -/
def nsRenameStep (r : NamespaceRename) (kv : String × String) : NamespaceRename :=
  if kv.1 = "from" then
    ⟨some kv.2, some (pyCountSub kv.2 "::" + 1), r.to_, r.errors⟩
  else if kv.1 = "to" then
    ⟨r.from_, r.from_num_parts, some kv.2, r.errors⟩
  else
    ⟨r.from_, r.from_num_parts, r.to_,
      r.errors ++ ["ERROR: invalid parameter " ++ kv.1 ++ " in NamespaceRename"]⟩

def NamespaceRename.init (params : List (String × String)) : NamespaceRename :=
  params.foldl nsRenameStep ⟨none, none, none, []⟩

/-- The visitor function `_visit_fun` of `NamespaceRename.run` (lines 30-44):
collect namespace nodes whose reconstructed qualified name equals the source
name, prune every other namespace, and descend only from the translation
unit. -/
def nsRenameVisit (from_ : String) (s : List AstNode) (node : AstNode) :
    List AstNode × VisitCtl :=
  if node.kind = CurKind.NAMESPACE then
    if get_complete_namespace_name node = from_ then
      (s ++ [node],
        if node.kind = CurKind.TRANSLATION_UNIT then VisitCtl.descend
        else VisitCtl.prune)
    else
      (s, VisitCtl.prune)
  else
    (s,
      if node.kind = CurKind.TRANSLATION_UNIT then VisitCtl.descend
      else VisitCtl.prune)

/-- The per-node replacement block of `NamespaceRename.run` (lines 50-79):
assert the `namespace <name tokens> \x7b` token shape, replace the name-token
span with the destination name, then probe the two lines after the closing
brace for a comment containing the old name and substring-replace it. -/
def nsRenameNode (from_ : String) (num_parts : Nat) (to_ : String)
    (u : TransformedUnit) (node : AstNode) (reps : List Repl) :
    Except String (List Repl) :=
  match u.getTokensIn node.extStart node.extEnd with
  | [] => Except.error "IndexError"
  | t0 :: rest =>
    if t0.kind = TokKind.keyword ∧ t0.spelling = "namespace" then
      if find_token TokKind.punctuation "\x7b" (t0 :: rest) 0
          = ((num_parts * 2 : Nat) : Int) then
        match (t0 :: rest).get? 1, (t0 :: rest).get? (num_parts * 2 - 1) with
        | some t1, some tlast =>
          match add_replacement u.filename t1.file t1.start tlast.stop to_ reps with
          | Except.error e => Except.error e
          | Except.ok reps1 =>
            match u.getTokensAfter node.extEnd node.endLine with
            | [] => Except.ok reps1
            | tc :: _ =>
              if tc.kind = TokKind.comment ∧ strContains tc.spelling from_ then
                if pyReplace tc.spelling from_ to_ ≠ tc.spelling then
                  add_replacement u.filename tc.file tc.start tc.stop
                    (pyReplace tc.spelling from_ to_) reps1
                else Except.ok reps1
              else Except.ok reps1
        | _, _ => Except.error "IndexError"
      else Except.error "AssertionError: unexpected namespace token shape"
    else Except.error "AssertionError: namespace keyword expected"

/-- The `for node in nodes_to_replace` loop of `NamespaceRename.run`. -/
def nsRenameApply (from_ : String) (num_parts : Nat) (to_ : String)
    (u : TransformedUnit) : List AstNode → List Repl → Except String (List Repl)
  | [], reps => Except.ok reps
  | node :: rest, reps =>
    match nsRenameNode from_ num_parts to_ u node reps with
    | Except.error e => Except.error e
    | Except.ok reps1 => nsRenameApply from_ num_parts to_ u rest reps1

/-- `NamespaceRename.run`: visit the current-file AST collecting matching
namespace nodes, then perform the replacements; accessing an unset
configuration field raises (AttributeError). -/
def NamespaceRename.run (r : NamespaceRename) (u : TransformedUnit) :
    Except String (List Repl) :=
  match r.from_, r.from_num_parts, r.to_ with
  | some from_, some num_parts, some to_ =>
    nsRenameApply from_ num_parts to_ u
      (visit_cur_unit_ast u.cursor (nsRenameVisit from_) []) []
  | _, _, _ => Except.error "AttributeError"

/-- Token stream of `namespace old_ns \x7b int x; \x7d // old_ns`. -/
def nsExampleTokens : List Tok :=
  [⟨TokKind.keyword, "namespace", 0, 9, 1, "input.cpp"⟩,
   ⟨TokKind.identifier, "old_ns", 10, 16, 1, "input.cpp"⟩,
   ⟨TokKind.punctuation, "\x7b", 17, 18, 1, "input.cpp"⟩,
   ⟨TokKind.keyword, "int", 19, 22, 1, "input.cpp"⟩,
   ⟨TokKind.identifier, "x", 23, 24, 1, "input.cpp"⟩,
   ⟨TokKind.punctuation, ";", 24, 25, 1, "input.cpp"⟩,
   ⟨TokKind.punctuation, "\x7d", 26, 27, 1, "input.cpp"⟩,
   ⟨TokKind.comment, "// old_ns", 28, 37, 1, "input.cpp"⟩]

/-- AST of `namespace old_ns \x7b int x; \x7d // old_ns`: a translation unit
with one namespace node containing one variable declaration. -/
def nsExampleAst : AstNode :=
  AstNode.mk CurKind.TRANSLATION_UNIT "input.cpp" 0 37 1 "input.cpp"
    (AstForest.cons
      (AstNode.mk CurKind.NAMESPACE "old_ns" 0 27 1 "input.cpp"
        (AstForest.cons
          (AstNode.mk CurKind.VAR_DECL "x" 19 24 1 "input.cpp" AstForest.nil)
          AstForest.nil))
      AstForest.nil)

/-- The parsed unit for the NamespaceRename example. -/
def nsExampleUnit : TransformedUnit :=
  ⟨"input.cpp", "namespace old_ns \x7b int x; \x7d // old_ns".data,
    nsExampleTokens, nsExampleAst⟩

/-- C3 (confirmed): NamespaceRename configured with from=old_ns, to=new_ns on
`namespace old_ns \x7b int x; \x7d // old_ns` replaces the name-token span
`[10, 16)` between `namespace` and the opening brace with `new_ns`, replaces
the trailing comment (within two lines after the closing brace and containing
the old name) with its substring-replacement, leaves `int x;` untouched, and
the materialized output is `namespace new_ns \x7b int x; \x7d // new_ns`. -/
theorem namespace_rename_example :
    (NamespaceRename.init [("from", "old_ns"), ("to", "new_ns")]).run nsExampleUnit
      = Except.ok [(10, 16, "new_ns"), (28, 37, "// new_ns")] ∧
    getModifiedContent nsExampleUnit.contents
        [(10, 16, "new_ns"), (28, 37, "// new_ns")]
      = "namespace new_ns \x7b int x; \x7d // new_ns".data := by
  refine ⟨rfl, by decide⟩

/-! ## Declarative parameters, the rule registry and load_rules
    (src/tools/cpp_transform/rules.py) -/

/-- A YAML value as the configuration loader delivers it to the rule
constructors. -/
inductive PValue where
  | s (v : String)
  | arr (items : List PValue)
  | obj (kvs : List (String × PValue))

/-- Python `params[key]` lookup on a parameter object (`None` models the
key's absence, which subscripting turns into a KeyError). -/
def lookupKey (kvs : List (String × PValue)) (key : String) : Option PValue :=
  match kvs.find? (fun kv => kv.1 == key) with
  | some kv => some kv.2
  | none => none

/-- `TokenIdReplace._interpret_token_list` on one entry: `punct` maps to
punctuation and any other tag to identifier (this private copy does not
handle `kwd`); missing `token` or `text` raises a KeyError. -/
def tokenIdInterpretEntry (el : PValue) : Except String (TokKind × String) :=
  match el with
  | PValue.obj kvs =>
    match lookupKey kvs "token" with
    | none => Except.error "KeyError: token"
    | some tv =>
      match lookupKey kvs "text" with
      | none => Except.error "KeyError: text"
      | some (PValue.s txt) =>
        Except.ok
          (match tv with
           | PValue.s "punct" => TokKind.punctuation
           | _ => TokKind.identifier, txt)
      | some _ => Except.error "TypeError"
  | _ => Except.error "TypeError"

/-- `_utils.interpret_token_list` on one entry: `punct` maps to punctuation,
`kwd` to keyword, anything else to identifier. -/
def utilsInterpretEntry (el : PValue) : Except String (TokKind × String) :=
  match el with
  | PValue.obj kvs =>
    match lookupKey kvs "token" with
    | none => Except.error "KeyError: token"
    | some tv =>
      match lookupKey kvs "text" with
      | none => Except.error "KeyError: text"
      | some (PValue.s txt) =>
        Except.ok
          (match tv with
           | PValue.s "punct" => TokKind.punctuation
           | PValue.s "kwd" => TokKind.keyword
           | _ => TokKind.identifier, txt)
      | some _ => Except.error "TypeError"
  | _ => Except.error "TypeError"

/-- The `for el in params_list` loop shared by the token-list interpreters,
propagating the first exception. -/
def interpretTokenList (f : PValue → Except String (TokKind × String)) :
    List PValue → Except String (List (TokKind × String))
  | [] => Except.ok []
  | el :: rest =>
    match f el with
    | Except.error e => Except.error e
    | Except.ok p =>
      match interpretTokenList f rest with
      | Except.error e => Except.error e
      | Except.ok ps => Except.ok (p :: ps)

/-- `_get(params, key, [])` followed by list iteration: a present key must
hold an array (guaranteed by the schema), an absent key defaults to `[]`. -/
def getParamList (kvs : List (String × PValue)) (key : String) : List PValue :=
  match lookupKey kvs key with
  | some (PValue.arr items) => items
  | some _ => []
  | none => []

/-- `TokenIdReplace.__init__` from the declarative parameter object:
subscripting a missing `from` or `to` raises a KeyError. -/
def TokenIdReplace.init (params : PValue) : Except String TokenIdReplace :=
  match params with
  | PValue.obj kvs =>
    match lookupKey kvs "from" with
    | none => Except.error "KeyError: from"
    | some (PValue.s from_) =>
      match lookupKey kvs "to" with
      | none => Except.error "KeyError: to"
      | some (PValue.s to_) =>
        match interpretTokenList tokenIdInterpretEntry (getParamList kvs "prev") with
        | Except.error e => Except.error e
        | Except.ok prev =>
          match interpretTokenList tokenIdInterpretEntry (getParamList kvs "after") with
          | Except.error e => Except.error e
          | Except.ok after => Except.ok (TokenIdReplace.mkRule from_ to_ prev after)
      | some _ => Except.error "TypeError"
    | some _ => Except.error "TypeError"
  | _ => Except.error "TypeError"

/-- `ReplaceTokens.__init__`: subscripting a missing `to` or `tokens` raises
a KeyError. -/
def ReplaceTokens.init (params : PValue) : Except String ReplaceTokens :=
  match params with
  | PValue.obj kvs =>
    match lookupKey kvs "to" with
    | none => Except.error "KeyError: to"
    | some (PValue.s to_) =>
      match lookupKey kvs "tokens" with
      | none => Except.error "KeyError: tokens"
      | some (PValue.arr tl) =>
        match interpretTokenList utilsInterpretEntry tl with
        | Except.error e => Except.error e
        | Except.ok tgts =>
          match interpretTokenList utilsInterpretEntry (getParamList kvs "prev") with
          | Except.error e => Except.error e
          | Except.ok prev =>
            match interpretTokenList utilsInterpretEntry (getParamList kvs "after") with
            | Except.error e => Except.error e
            | Except.ok after => Except.ok (ReplaceTokens.mkRule to_ tgts prev after)
      | some _ => Except.error "TypeError"
    | some _ => Except.error "TypeError"
  | _ => Except.error "TypeError"

/-- `SurroundTokens.__init__`: subscripting a missing `pre`, `post` or
`tokens` raises a KeyError. -/
def SurroundTokens.init (params : PValue) : Except String SurroundTokens :=
  match params with
  | PValue.obj kvs =>
    match lookupKey kvs "pre" with
    | none => Except.error "KeyError: pre"
    | some (PValue.s pre) =>
      match lookupKey kvs "post" with
      | none => Except.error "KeyError: post"
      | some (PValue.s post) =>
        match lookupKey kvs "tokens" with
        | none => Except.error "KeyError: tokens"
        | some (PValue.arr tl) =>
          match interpretTokenList tokenIdInterpretEntry tl with
          | Except.error e => Except.error e
          | Except.ok tgts => Except.ok ⟨pre, post, tgts⟩
        | some _ => Except.error "TypeError"
      | some _ => Except.error "TypeError"
    | some _ => Except.error "TypeError"
  | _ => Except.error "TypeError"

/-- Configuration state of `AddInNamespace` after `__init__`. -/
structure AddInNamespace where
  add : String
  in_ns_list : List String

/-- `AddInNamespace.__init__`: subscripting a missing `add` or `in` raises a
KeyError. -/
def AddInNamespace.init (params : PValue) : Except String AddInNamespace :=
  match params with
  | PValue.obj kvs =>
    match lookupKey kvs "add" with
    | none => Except.error "KeyError: add"
    | some (PValue.s add) =>
      match lookupKey kvs "in" with
      | none => Except.error "KeyError: in"
      | some (PValue.arr items) =>
        Except.ok ⟨add, items.filterMap (fun v =>
          match v with
          | PValue.s x => some x
          | _ => none)⟩
      | some _ => Except.error "TypeError"
    | some _ => Except.error "TypeError"
  | _ => Except.error "TypeError"

/-- Configuration state of `IncludeToQuotes` after `__init__`: the raw
allow-list (the schema guarantees a list of strings). -/
structure IncludeToQuotes where
  headers : List String

/-- `IncludeToQuotes.__init__`: stores the parameter list as the allow-list;
it requires no key at all. -/
def IncludeToQuotes.init (params : PValue) : IncludeToQuotes :=
  match params with
  | PValue.arr items =>
    ⟨items.filterMap (fun v =>
      match v with
      | PValue.s x => some x
      | _ => none)⟩
  | _ => ⟨[]⟩

/-- The `prev`/`after` item schema of `_schema`: when present the value must
be an array of objects each carrying `token ∈ {punct, id}` and a string
`text`. -/
def schemaTokenListOk : Option PValue → Bool
  | none => true
  | some (PValue.arr items) =>
    items.all (fun el =>
      match el with
      | PValue.obj eps =>
        (match lookupKey eps "token" with
         | some (PValue.s tag) => tag == "punct" || tag == "id"
         | _ => false) &&
        (match lookupKey eps "text" with
         | some (PValue.s _) => true
         | _ => false)
      | _ => false)
  | some _ => false

/-- `_schema` constraint on an `IncludeToQuotes` value: an array of strings. -/
def schemaIncludeOk (v : PValue) : Bool :=
  match v with
  | PValue.arr items =>
    items.all (fun el =>
      match el with
      | PValue.s _ => true
      | _ => false)
  | _ => false

/-- `_schema` constraint on a `NamespaceRename` value: an object with the
required string properties `from` and `to`. -/
def schemaNsRenameOk (v : PValue) : Bool :=
  match v with
  | PValue.obj ps =>
    (match lookupKey ps "from" with
     | some (PValue.s _) => true
     | _ => false) &&
    (match lookupKey ps "to" with
     | some (PValue.s _) => true
     | _ => false)
  | _ => false

/-- `_schema` constraint on a `TokenIdReplace` value: an object with required
string properties `from` and `to` and optional `prev`/`after` token lists. -/
def schemaTokenIdOk (v : PValue) : Bool :=
  match v with
  | PValue.obj ps =>
    (match lookupKey ps "from" with
     | some (PValue.s _) => true
     | _ => false) &&
    (match lookupKey ps "to" with
     | some (PValue.s _) => true
     | _ => false) &&
    schemaTokenListOk (lookupKey ps "prev") &&
    schemaTokenListOk (lookupKey ps "after")
  | _ => false

/-- Per-key schema check: jsonschema `properties` constrains only the three
listed rule names; any other key (including the three unregistered rule
names) is unconstrained and passes. -/
def entryOk (kv : String × PValue) : Bool :=
  if kv.1 = "IncludeToQuotes" then schemaIncludeOk kv.2
  else if kv.1 = "NamespaceRename" then schemaNsRenameOk kv.2
  else if kv.1 = "TokenIdReplace" then schemaTokenIdOk kv.2
  else true

/-- jsonschema validation of the whole rules document against `_schema`
(rules.py lines 14-76): an array of objects, each object's known properties
conforming. -/
def schemaOk (config : List PValue) : Bool :=
  config.all (fun entry =>
    match entry with
    | PValue.obj kvs => kvs.all entryOk
    | _ => false)

/-- A rule object constructed by `load_rules`. -/
inductive RuleObj where
  | includeToQuotes (r : IncludeToQuotes)
  | namespaceRename (r : NamespaceRename)
  | tokenIdReplace (r : TokenIdReplace)

/-- The declarative name a constructed rule was registered under. -/
def RuleObj.name : RuleObj → String
  | RuleObj.includeToQuotes _ => "IncludeToQuotes"
  | RuleObj.namespaceRename _ => "NamespaceRename"
  | RuleObj.tokenIdReplace _ => "TokenIdReplace"

/-- `_all_rules` (rules.py lines 8-12): the names the registry maps to
constructors — exactly three of the six rule types. -/
def allRules : List String :=
  ["IncludeToQuotes", "NamespaceRename", "TokenIdReplace"]

/-- `NamespaceRename.__init__` consumes its parameters as string pairs; the
schema guarantees the values of `from`/`to` are strings. -/
def pvalueToStrPairs (kvs : List (String × PValue)) : List (String × String) :=
  kvs.map (fun kv =>
    (kv.1,
      match kv.2 with
      | PValue.s v => v
      | _ => ""))

/-- The parameter object of a `NamespaceRename` entry as the string pairs its
constructor iterates. -/
def nsParamsOf : PValue → List (String × String)
  | PValue.obj kvs => pvalueToStrPairs kvs
  | _ => []

/-- The `for rule_name, params in rule.items()` loop of `load_rules` (lines
90-98) over the flattened entries: a registered name constructs its rule
(`propagating a constructor exception`), an unknown name appends the
diagnostic message and is skipped. -/
def loadRulesEntries : List (String × PValue) → Except String (List RuleObj × List String)
  | [] => Except.ok ([], [])
  | (rule_name, params) :: rest =>
    if rule_name = "IncludeToQuotes" then
      match loadRulesEntries rest with
      | Except.error e => Except.error e
      | Except.ok (rules, errs) =>
        Except.ok (RuleObj.includeToQuotes (IncludeToQuotes.init params) :: rules, errs)
    else if rule_name = "NamespaceRename" then
      match loadRulesEntries rest with
      | Except.error e => Except.error e
      | Except.ok (rules, errs) =>
        Except.ok (RuleObj.namespaceRename
          (NamespaceRename.init (nsParamsOf params)) :: rules, errs)
    else if rule_name = "TokenIdReplace" then
      match TokenIdReplace.init params with
      | Except.error e => Except.error e
      | Except.ok r =>
        match loadRulesEntries rest with
        | Except.error e => Except.error e
        | Except.ok (rules, errs) => Except.ok (RuleObj.tokenIdReplace r :: rules, errs)
    else
      match loadRulesEntries rest with
      | Except.error e => Except.error e
      | Except.ok (rules, errs) =>
        Except.ok (rules, ("ERROR: Unknown rule " ++ rule_name) :: errs)

/-- The single-key entry objects of the rules document, flattened in declared
order. -/
def configEntries (config : List PValue) : List (String × PValue) :=
  (config.map (fun e =>
    match e with
    | PValue.obj kvs => kvs
    | _ => [])).flatten

/-- `rules.load_rules` after YAML parsing: jsonschema validation first (a
failure aborts before any rule is constructed), then the entry loop. -/
def load_rules (config : List PValue) : Except String (List RuleObj × List String) :=
  if schemaOk config then loadRulesEntries (configEntries config)
  else Except.error "SchemaValidationError"

theorem tokenIdInterpretEntry_ok (el : PValue)
    (h : (match el with
      | PValue.obj eps =>
        (match lookupKey eps "token" with
         | some (PValue.s tag) => tag == "punct" || tag == "id"
         | _ => false) &&
        (match lookupKey eps "text" with
         | some (PValue.s _) => true
         | _ => false)
      | _ => false) = true) :
    ∃ p, tokenIdInterpretEntry el = Except.ok p := by
  match el with
  | PValue.s _ => simp at h
  | PValue.arr _ => simp at h
  | PValue.obj eps =>
    rw [Bool.and_eq_true] at h
    obtain ⟨htok, htxt⟩ := h
    simp only [tokenIdInterpretEntry]
    match htk : lookupKey eps "token" with
    | none => rw [htk] at htok; simp at htok
    | some (PValue.arr _) => rw [htk] at htok; simp at htok
    | some (PValue.obj _) => rw [htk] at htok; simp at htok
    | some (PValue.s tag) =>
      match htx : lookupKey eps "text" with
      | none => rw [htx] at htxt; simp at htxt
      | some (PValue.arr _) => rw [htx] at htxt; simp at htxt
      | some (PValue.obj _) => rw [htx] at htxt; simp at htxt
      | some (PValue.s txt) => exact ⟨_, rfl⟩

theorem interpretTokenList_ok (items : List PValue)
    (h : (items.all (fun el =>
      match el with
      | PValue.obj eps =>
        (match lookupKey eps "token" with
         | some (PValue.s tag) => tag == "punct" || tag == "id"
         | _ => false) &&
        (match lookupKey eps "text" with
         | some (PValue.s _) => true
         | _ => false)
      | _ => false)) = true) :
    ∃ ps, interpretTokenList tokenIdInterpretEntry items = Except.ok ps := by
  induction items with
  | nil => exact ⟨[], rfl⟩
  | cons el rest ih =>
    rw [List.all_cons, Bool.and_eq_true] at h
    obtain ⟨hel, hrest⟩ := h
    obtain ⟨p, hp⟩ := tokenIdInterpretEntry_ok el hel
    obtain ⟨ps, hps⟩ := ih hrest
    refine ⟨p :: ps, ?_⟩
    unfold interpretTokenList
    rw [hp, hps]

theorem getParamList_ok (kvs : List (String × PValue)) (key : String)
    (h : schemaTokenListOk (lookupKey kvs key) = true) :
    ∃ ps, interpretTokenList tokenIdInterpretEntry (getParamList kvs key)
      = Except.ok ps := by
  unfold getParamList
  match hlk : lookupKey kvs key with
  | none => exact ⟨[], rfl⟩
  | some (PValue.s _) => rw [hlk] at h; simp [schemaTokenListOk] at h
  | some (PValue.obj _) => rw [hlk] at h; simp [schemaTokenListOk] at h
  | some (PValue.arr items) =>
    rw [hlk] at h
    unfold schemaTokenListOk at h
    exact interpretTokenList_ok items h

theorem TokenIdReplace.init_ok (params : PValue)
    (h : schemaTokenIdOk params = true) :
    ∃ r, TokenIdReplace.init params = Except.ok r := by
  match params with
  | PValue.s _ => simp [schemaTokenIdOk] at h
  | PValue.arr _ => simp [schemaTokenIdOk] at h
  | PValue.obj ps =>
    unfold schemaTokenIdOk at h
    rw [Bool.and_eq_true, Bool.and_eq_true, Bool.and_eq_true] at h
    obtain ⟨⟨⟨hfrom, hto⟩, hprev⟩, hafter⟩ := h
    simp only [TokenIdReplace.init]
    match hf : lookupKey ps "from" with
    | none => rw [hf] at hfrom; simp at hfrom
    | some (PValue.arr _) => rw [hf] at hfrom; simp at hfrom
    | some (PValue.obj _) => rw [hf] at hfrom; simp at hfrom
    | some (PValue.s from_) =>
      match ht : lookupKey ps "to" with
      | none => rw [ht] at hto; simp at hto
      | some (PValue.arr _) => rw [ht] at hto; simp at hto
      | some (PValue.obj _) => rw [ht] at hto; simp at hto
      | some (PValue.s to_) =>
        obtain ⟨prev, hp⟩ := getParamList_ok ps "prev" hprev
        obtain ⟨after, ha⟩ := getParamList_ok ps "after" hafter
        rw [hp, ha]
        exact ⟨_, rfl⟩

theorem schemaOk_entries (config : List PValue) (h : schemaOk config = true) :
    ∀ kv ∈ configEntries config, entryOk kv = true := by
  intro kv hkv
  unfold configEntries at hkv
  rw [List.mem_flatten] at hkv
  obtain ⟨l, hl, hkvl⟩ := hkv
  rw [List.mem_map] at hl
  obtain ⟨e, he, rfl⟩ := hl
  unfold schemaOk at h
  rw [List.all_eq_true] at h
  have := h e he
  match e with
  | PValue.s _ => simp at this
  | PValue.arr _ => simp at this
  | PValue.obj kvs =>
    rw [List.all_eq_true] at this
    exact this kv hkvl
theorem loadRulesEntries_spec :
    ∀ entries : List (String × PValue),
      (∀ kv ∈ entries, entryOk kv = true) →
      ∃ rules errs, loadRulesEntries entries = Except.ok (rules, errs) ∧
        rules.map RuleObj.name
          = (entries.map Prod.fst).filter (fun n => decide (n ∈ allRules)) ∧
        errs = ((entries.map Prod.fst).filter (fun n => decide (n ∉ allRules))).map
          (fun n => "ERROR: Unknown rule " ++ n) := by
  intro entries
  induction entries with
  | nil => exact fun _ => ⟨[], [], rfl, rfl, rfl⟩
  | cons kv rest ih =>
    intro h
    obtain ⟨name, params⟩ := kv
    obtain ⟨rules, errs, heq, hnames, herrs⟩ :=
      ih (fun kv hkv => h kv (List.mem_cons_of_mem _ hkv))
    have hent : entryOk (name, params) = true := h _ (List.mem_cons_self _ _)
    by_cases h1 : name = "IncludeToQuotes"
    · subst h1
      have hstep : loadRulesEntries (("IncludeToQuotes", params) :: rest)
          = Except.ok (RuleObj.includeToQuotes (IncludeToQuotes.init params)
              :: rules, errs) := by
        simp [loadRulesEntries, heq]
      refine ⟨_, _, hstep, ?_, ?_⟩
      · simp [RuleObj.name, hnames, allRules]
      · simpa [allRules] using herrs
    · by_cases h2 : name = "NamespaceRename"
      · subst h2
        have hstep : loadRulesEntries (("NamespaceRename", params) :: rest)
            = Except.ok (RuleObj.namespaceRename
                (NamespaceRename.init (nsParamsOf params)) :: rules, errs) := by
          simp [loadRulesEntries, heq]
        refine ⟨_, _, hstep, ?_, ?_⟩
        · simp [RuleObj.name, hnames, allRules]
        · simpa [allRules] using herrs
      · by_cases h3 : name = "TokenIdReplace"
        · subst h3
          have hschema : schemaTokenIdOk params = true := by
            unfold entryOk at hent
            norm_num at hent
            exact hent
          obtain ⟨r, hr⟩ := TokenIdReplace.init_ok params hschema
          have hstep : loadRulesEntries (("TokenIdReplace", params) :: rest)
              = Except.ok (RuleObj.tokenIdReplace r :: rules, errs) := by
            simp [loadRulesEntries, heq, hr]
          refine ⟨_, _, hstep, ?_, ?_⟩
          · simp [RuleObj.name, hnames, allRules]
          · simpa [allRules] using herrs
        · have hmem : name ∉ allRules := by
            simp [allRules, h1, h2, h3]
          have hstep : loadRulesEntries ((name, params) :: rest)
              = Except.ok (rules, ("ERROR: Unknown rule " ++ name) :: errs) := by
            simp [loadRulesEntries, h1, h2, h3, heq]
          refine ⟨_, _, hstep, ?_, ?_⟩
          · simp [hnames, hmem]
          · simp [herrs, hmem]

/-- C7 (corrected, counterexample): the rule registry `_all_rules` does not
contain `ReplaceTokens` (nor `AddInNamespace` or `SurroundTokens`): a
schema-valid configuration whose single entry names `ReplaceTokens`
constructs no rule object at all — the entry is reported to the diagnostic
channel and skipped — refuting the claim that each of the six rule names maps
to a constructor. -/
theorem rule_registry_counterexample :
    "ReplaceTokens" ∉ allRules ∧
    "AddInNamespace" ∉ allRules ∧
    "SurroundTokens" ∉ allRules ∧
    load_rules [PValue.obj [("ReplaceTokens",
        PValue.obj [("to", PValue.s "x"), ("tokens", PValue.arr [])])]]
      = Except.ok ([], ["ERROR: Unknown rule ReplaceTokens"]) := by
  refine ⟨by decide, by decide, by decide, rfl⟩

/-- C7 (amended): the registry maps exactly three of the six rule names
(IncludeToQuotes, NamespaceRename, TokenIdReplace) to constructors.  On a
schema-valid configuration, `load_rules` instantiates one rule object per
entry bearing a registered name, in declared order, while every entry with
any other name — including the other three rule types — is reported to the
diagnostic channel and skipped, the remaining rules still being
constructed. -/
theorem load_rules_registry (config : List PValue) (h : schemaOk config = true) :
    ∃ rules errs, load_rules config = Except.ok (rules, errs) ∧
      rules.map RuleObj.name
        = ((configEntries config).map Prod.fst).filter
            (fun n => decide (n ∈ allRules)) ∧
      errs = (((configEntries config).map Prod.fst).filter
          (fun n => decide (n ∉ allRules))).map
          (fun n => "ERROR: Unknown rule " ++ n) := by
  have := loadRulesEntries_spec (configEntries config) (schemaOk_entries config h)
  unfold load_rules
  rw [if_pos h]
  exact this

/-- Witness for C7: a two-entry configuration with one registered name and
one unregistered name passes validation; the registered entry yields the one
constructed rule and the unregistered entry yields the one diagnostic. -/
theorem load_rules_registry_witness :
    schemaOk [PValue.obj [("NamespaceRename",
        PValue.obj [("from", PValue.s "a"), ("to", PValue.s "b")])],
      PValue.obj [("SurroundTokens", PValue.s "x")]] = true ∧
    ∃ rules errs,
      load_rules [PValue.obj [("NamespaceRename",
          PValue.obj [("from", PValue.s "a"), ("to", PValue.s "b")])],
        PValue.obj [("SurroundTokens", PValue.s "x")]]
        = Except.ok (rules, errs) ∧
      rules.map RuleObj.name = ["NamespaceRename"] ∧
      errs = ["ERROR: Unknown rule SurroundTokens"] := by
  refine ⟨rfl, ?_⟩
  obtain ⟨rules, errs, heq, hnames, herrs⟩ :=
    load_rules_registry [PValue.obj [("NamespaceRename",
        PValue.obj [("from", PValue.s "a"), ("to", PValue.s "b")])],
      PValue.obj [("SurroundTokens", PValue.s "x")]] rfl
  refine ⟨rules, errs, heq, ?_, ?_⟩
  · rw [hnames]; rfl
  · rw [herrs]; rfl

theorem nsRenameInit_errors_aux :
    ∀ (params : List (String × String)) (r0 : NamespaceRename),
      (params.foldl nsRenameStep r0).errors
        = r0.errors ++ (params.filter
            (fun kv => !(kv.1 == "from" || kv.1 == "to"))).map
            (fun kv => "ERROR: invalid parameter " ++ kv.1 ++ " in NamespaceRename") := by
  intro params
  induction params with
  | nil => intro r0; simp
  | cons kv rest ih =>
    intro r0
    rw [List.foldl_cons, ih]
    by_cases hf : kv.1 = "from"
    · simp [nsRenameStep, hf]
    · by_cases ht : kv.1 = "to"
      · simp [nsRenameStep, hf, ht]
      · simp [nsRenameStep, hf, ht]

theorem nsRenameInit_errors (params : List (String × String)) :
    (NamespaceRename.init params).errors
      = (params.filter (fun kv => !(kv.1 == "from" || kv.1 == "to"))).map
          (fun kv => "ERROR: invalid parameter " ++ kv.1 ++ " in NamespaceRename") := by
  unfold NamespaceRename.init
  rw [nsRenameInit_errors_aux]
  rfl

/-- C8 (corrected, counterexample): constructing `NamespaceRename` from a
parameter object that lacks the required key `to` succeeds: the constructor
returns normally with `to` unset and reports nothing — construction does not
fail with a configuration error. -/
theorem namespace_rename_init_counterexample :
    NamespaceRename.init [("from", "old_ns")]
      = ⟨some "old_ns", some 1, none, []⟩ ∧
    (NamespaceRename.init [("from", "old_ns")]).errors = [] := by
  exact ⟨rfl, rfl⟩

/-- C8 (amended): the constructors of TokenIdReplace, ReplaceTokens,
SurroundTokens and AddInNamespace raise a KeyError when a required key is
missing, but NamespaceRename's constructor completes normally whatever keys
are missing (it reports only unknown keys) and IncludeToQuotes requires no
key at all; a rules file with a NamespaceRename entry lacking `to`
nevertheless makes the run fail before any input file is opened, because the
jsonschema validation in `load_rules` rejects it before any rule is
constructed. -/
theorem missing_key_config_error
    (kvs nskvs : List (String × PValue)) (params : List (String × String))
    (pre post : List PValue) :
    (lookupKey kvs "from" = none →
      TokenIdReplace.init (PValue.obj kvs) = Except.error "KeyError: from") ∧
    (lookupKey kvs "to" = none →
      ReplaceTokens.init (PValue.obj kvs) = Except.error "KeyError: to") ∧
    (lookupKey kvs "pre" = none →
      SurroundTokens.init (PValue.obj kvs) = Except.error "KeyError: pre") ∧
    (lookupKey kvs "add" = none →
      AddInNamespace.init (PValue.obj kvs) = Except.error "KeyError: add") ∧
    ((NamespaceRename.init params).errors
      = (params.filter (fun kv => !(kv.1 == "from" || kv.1 == "to"))).map
          (fun kv => "ERROR: invalid parameter " ++ kv.1 ++ " in NamespaceRename")) ∧
    (lookupKey nskvs "to" = none →
      schemaOk (pre ++ PValue.obj [("NamespaceRename", PValue.obj nskvs)] :: post)
          = false ∧
      load_rules (pre ++ PValue.obj [("NamespaceRename", PValue.obj nskvs)] :: post)
        = Except.error "SchemaValidationError") := by
  refine ⟨?_, ?_, ?_, ?_, nsRenameInit_errors params, ?_⟩
  · intro h
    simp only [TokenIdReplace.init]
    rw [h]
  · intro h
    simp only [ReplaceTokens.init]
    rw [h]
  · intro h
    simp only [SurroundTokens.init]
    rw [h]
  · intro h
    simp only [AddInNamespace.init]
    rw [h]
  · intro h
    have hmid : schemaOk (pre ++ PValue.obj [("NamespaceRename", PValue.obj nskvs)]
        :: post) = false := by
      unfold schemaOk
      rw [List.all_append, List.all_cons]
      have : entryOk ("NamespaceRename", PValue.obj nskvs) = false := by
        unfold entryOk schemaNsRenameOk
        simp [h]
      simp [this, entryOk] at *
      intro hc
      simp_all
    refine ⟨hmid, ?_⟩
    unfold load_rules
    rw [hmid]
    rfl

/-- Witness for C8 at concrete inputs: the empty parameter object lacks every
key, the one-entry NamespaceRename parameter list has an unknown key, and a
one-entry rules file whose NamespaceRename object lacks `to` is rejected by
the schema. -/
theorem missing_key_config_error_witness :
    lookupKey [] "from" = none ∧
    TokenIdReplace.init (PValue.obj []) = Except.error "KeyError: from" ∧
    ReplaceTokens.init (PValue.obj []) = Except.error "KeyError: to" ∧
    SurroundTokens.init (PValue.obj []) = Except.error "KeyError: pre" ∧
    AddInNamespace.init (PValue.obj []) = Except.error "KeyError: add" ∧
    (NamespaceRename.init [("oops", "v")]).errors
      = ["ERROR: invalid parameter oops in NamespaceRename"] ∧
    schemaOk [PValue.obj [("NamespaceRename",
        PValue.obj [("from", PValue.s "a")])]] = false ∧
    load_rules [PValue.obj [("NamespaceRename",
        PValue.obj [("from", PValue.s "a")])]]
      = Except.error "SchemaValidationError" := by
  obtain ⟨h1, h2, h3, h4, _, h6⟩ :=
    missing_key_config_error [] [("from", PValue.s "a")] [("oops", "v")] [] []
  obtain ⟨h7, h8⟩ := h6 rfl
  exact ⟨rfl, h1 rfl, h2 rfl, h3 rfl, h4 rfl,
    (missing_key_config_error [] [] [("oops", "v")] [] []).2.2.2.2.1, h7, h8⟩
